import Mathlib

/-!
Verification development for the CarlBox server (BLE GATT peripheral + MIDI
sampler).  The definitions below are a shallow embedding of the Python source:

  * `carlbox_server.py` — `FileManager` (chunked upload / delete / list) and
    `BLEHandler` (command dispatch, transfer-chunk handling, notifications);
  * `midi_sampler.py` — `SampleLoader` (`_find_sample_file`, `scan_and_update`)
    and `handle_midi_message` (playback dispatch).

Machine-level side effects are made explicit: the filesystem is a finite map
from path strings to byte lists, notifications are accumulated in a list, and
external library calls (JSON decoding, directory listing, sound loading,
the mixer channel) are inputs to the embedded functions.
-/

namespace CarlBox

/-- Bytes are modelled as natural numbers (the code never does byte
arithmetic, only concatenation and length). -/
abbrev Byte := Nat

/-! ## Python string and path primitives

Python strings are sequences of code points; we work on `String.data`
(`List Char`) and compare characters by code point, exactly as CPython does. -/

/-- Python `s.startswith('/')`. -/
def startsSlash (s : String) : Bool :=
  match s.data with
  | [] => false
  | c :: _ => c = '/'

/-- Python `s.endswith('/')` (used to split the `os.path.join` cases). -/
def endsSlash (s : String) : Bool :=
  match s.data.getLast? with
  | some c => c = '/'
  | none => false

/-- Python `s.startswith('.')` (the hidden-file test in `list_all_files`). -/
def startsDot (s : String) : Bool :=
  match s.data with
  | [] => false
  | c :: _ => c = '.'

/-- Helper for `pyBasename`: scan the characters, restarting the accumulator
after every `'/'`; what remains is the part after the last separator. -/
def basenameAux : List Char → List Char → List Char
  | [], acc => acc.reverse
  | c :: rest, acc => if c = '/' then basenameAux rest [] else basenameAux rest (c :: acc)

/-- Python (posix) `os.path.basename`: everything after the last `'/'`
(empty when the string ends in `'/'`). -/
def pyBasename (s : String) : String :=
  String.mk (basenameAux s.data [])

/-- Python (posix) `os.path.join(a, b)` for two components: `b` absolute
discards `a`; otherwise the parts are glued with exactly one `'/'`. -/
def pyJoin (a b : String) : String :=
  if startsSlash b then b
  else if a.data = [] then b
  else if endsSlash a then String.mk (a.data ++ b.data)
  else String.mk (a.data ++ '/' :: b.data)

/-- Python `s.lower()` (ASCII-relevant part; all extensions involved are
ASCII). -/
def strLower (s : String) : String :=
  String.mk (s.data.map Char.toLower)

/-- Python code-point lexicographic `<=` on character lists (`str` comparison
in CPython compares code points left to right). -/
def charListLe : List Char → List Char → Bool
  | [], _ => true
  | _ :: _, [] => false
  | a :: as, b :: bs =>
    if a.toNat < b.toNat then true
    else if b.toNat < a.toNat then false
    else charListLe as bs

/-- Python `<=` on strings. -/
def strLe (a b : String) : Bool :=
  charListLe a.data b.data

/-- Python code-point lexicographic `<` on character lists. -/
def charListLt : List Char → List Char → Bool
  | [], [] => false
  | [], _ :: _ => true
  | _ :: _, [] => false
  | a :: as, b :: bs =>
    if a.toNat < b.toNat then true
    else if b.toNat < a.toNat then false
    else charListLt as bs

/-- Python `<` on strings. -/
def strLt (a b : String) : Bool :=
  charListLt a.data b.data

/-- Stable insertion wrt a strict order: `x` is placed after every element it
is not strictly less than (so equals keep their original order). -/
def insertOrd (lt : α → α → Bool) (x : α) : List α → List α
  | [] => [x]
  | y :: ys => if lt x y then x :: y :: ys else y :: insertOrd lt x ys

/-- Accumulator loop of `pySort`. -/
def pySortAux (lt : α → α → Bool) : List α → List α → List α
  | acc, [] => acc
  | acc, x :: xs => pySortAux lt (insertOrd lt x acc) xs

/-- Python's `list.sort` / `sorted` — a stable ascending sort wrt a strict
order `lt`, modelled as stable insertion sort (extensionally the same
function on any strict weak order, stability included). -/
def pySort (lt : α → α → Bool) (l : List α) : List α :=
  pySortAux lt [] l

/-! ## Constants from the source -/

/-- `SUPPORTED_EXTENSIONS = ('.wav', '.mp3')` (identical in both modules). -/
def SUPPORTED_EXTENSIONS : List String := [".wav", ".mp3"]

/-- `CHUNK_SIZE = 512` (`carlbox_server.py`). -/
def CHUNK_SIZE : Nat := 512

/-- Python `f.lower().endswith(SUPPORTED_EXTENSIONS)`. -/
def hasSupportedExt (f : String) : Bool :=
  SUPPORTED_EXTENSIONS.any fun e => e.data.isSuffixOf (strLower f).data

/-- `NOTE_MAPPING` from `midi_sampler.py`: folder name → MIDI note, in dict
insertion order. -/
def NOTE_MAPPING : List (String × Nat) :=
  [("Key1", 50), ("Key2", 51), ("Key3", 52), ("Key4", 53),
   ("Key5", 54), ("Key6", 55), ("Key7", 56), ("Key8", 57),
   ("Key9", 58), ("Key10", 59), ("Key11", 60), ("Key12", 61)]

/-- `NOTE_TO_KEY = {v: k for k, v in NOTE_MAPPING.items()}` as a lookup. -/
def NOTE_TO_KEY (n : Nat) : Option String :=
  (NOTE_MAPPING.find? fun p => p.2 == n).map (·.1)

/-- `STOP_KEY_NAME = "Key1"`. -/
def STOP_KEY_NAME : String := "Key1"

/-! ## Filesystem model

A finite map from absolute path strings to file contents.  Directory
creation (`os.makedirs`) has no observable effect in this model; directory
listings (`os.listdir` / `os.path.isdir`) are environment inputs, because the
OS owns them. -/

/-- Filesystem: association list path → contents. -/
abbrev FileSystem := List (String × List Byte)

/-- Read a file (`none` = no such file). -/
def fsRead : FileSystem → String → Option (List Byte)
  | [], _ => none
  | (q, e) :: rest, p => if q == p then some e else fsRead rest p

/-- Create or overwrite a file with the given contents. -/
def fsWrite : FileSystem → String → List Byte → FileSystem
  | [], p, d => [(p, d)]
  | (q, e) :: rest, p, d =>
    if q == p then (p, d) :: rest else (q, e) :: fsWrite rest p d

/-- Remove a file. -/
def fsErase (fs : FileSystem) (p : String) : FileSystem :=
  fs.filter fun q => !(q.1 == p)

/-! ## FileManager (`carlbox_server.py`, class `FileManager`)

Upload-session fields exactly as in `__init__`: `_upload_key` and
`_upload_filename` are `None` or a string, `_upload_expected_size` an integer
(it arrives from JSON), `_upload_buffer` a byte buffer. -/

structure FileManager where
  uploadsDir : String
  uploadKey : Option String
  uploadFilename : Option String
  uploadExpectedSize : Int
  uploadBuffer : List Byte
deriving Repr

/-- `FileManager.__init__` (the `os.makedirs` call only touches directories,
which are not part of the file map). -/
def initFileManager (uploadsDir : String) : FileManager :=
  { uploadsDir := uploadsDir
    uploadKey := none
    uploadFilename := none
    uploadExpectedSize := 0
    uploadBuffer := [] }

/-- Python truthiness of an optional string (`if not self._upload_key`):
falsy when `None` or empty. -/
def optStrTruthy : Option String → Bool
  | none => false
  | some s => !(s.data = [])

/-- `list_all_files`: for every key of `NOTE_MAPPING`, the sorted list of
non-hidden files with a supported extension in that key's directory.
`dirs` is the OS view: directory path ↦ (isdir, listdir). -/
def list_all_files (uploadsDir : String) (dirs : String → Bool × List String) :
    List (String × List String) :=
  NOTE_MAPPING.map fun kn =>
    let key_dir := pyJoin uploadsDir kn.1
    let v := dirs key_dir
    if v.1 then
      (kn.1, pySort strLt (v.2.filter fun f => hasSupportedExt f && !startsDot f))
    else
      (kn.1, [])

/-- The path `delete_file` and `finalize_upload` aim at:
`os.path.join(uploads_dir, key, os.path.basename(filename))`. -/
def targetPath (uploadsDir key filename : String) : String :=
  pyJoin (pyJoin uploadsDir key) (pyBasename filename)

/-- `delete_file`: sanitize the file name to its basename, delete if present.
Returns the new filesystem and the success flag. -/
def delete_file (fm : FileManager) (fs : FileSystem) (key filename : String) :
    FileSystem × Bool :=
  let file_path := targetPath fm.uploadsDir key filename
  if (fsRead fs file_path).isSome then (fsErase fs file_path, true)
  else (fs, false)

/-- `begin_upload(key, filename, size)`: store the key verbatim, the
basename of the file name, the expected size, and an empty buffer. -/
def begin_upload (fm : FileManager) (key filename : String) (size : Int) : FileManager :=
  { fm with
    uploadKey := some key
    uploadFilename := some (pyBasename filename)
    uploadExpectedSize := size
    uploadBuffer := [] }

/-- `receive_chunk(data)`: append to the buffer, return the new total. -/
def receive_chunk (fm : FileManager) (data : List Byte) : FileManager × Nat :=
  let fm' := { fm with uploadBuffer := fm.uploadBuffer ++ data }
  (fm', fm'.uploadBuffer.length)

/-- Property `upload_in_progress`: `self._upload_key is not None`. -/
def upload_in_progress (fm : FileManager) : Bool :=
  fm.uploadKey.isSome

/-- Property `upload_complete`: key present and buffered length ≥ expected. -/
def upload_complete (fm : FileManager) : Bool :=
  fm.uploadKey.isSome && decide (fm.uploadExpectedSize ≤ (fm.uploadBuffer.length : Int))

/-- Property `bytes_received`. -/
def bytes_received (fm : FileManager) : Nat :=
  fm.uploadBuffer.length

/-- `_reset_upload`. -/
def reset_upload (fm : FileManager) : FileManager :=
  { fm with
    uploadKey := none
    uploadFilename := none
    uploadExpectedSize := 0
    uploadBuffer := [] }

/-- Result of `finalize_upload`: new session state, new filesystem, returned
success flag. -/
structure FinalizeResult where
  fm : FileManager
  fs : FileSystem
  ok : Bool
deriving Repr

/-- `finalize_upload`: early `return False` (no reset) when key or filename is
falsy; otherwise write the whole buffer to the target path and reset the
session in the `finally` block whether the write raised `OSError` or not.
`writeOk` is the outcome of the `open`/`write` calls (the disk is external). -/
def finalize_upload (fm : FileManager) (fs : FileSystem) (writeOk : Bool) : FinalizeResult :=
  if !optStrTruthy fm.uploadKey || !optStrTruthy fm.uploadFilename then
    ⟨fm, fs, false⟩
  else
    let key_dir := pyJoin fm.uploadsDir (fm.uploadKey.getD "")
    let file_path := pyJoin key_dir (fm.uploadFilename.getD "")
    if writeOk then ⟨reset_upload fm, fsWrite fs file_path fm.uploadBuffer, true⟩
    else ⟨reset_upload fm, fs, false⟩

/-! ## Syscall trace of `finalize_upload`

For the atomic-visibility claim we also record the sequence of filesystem
operations the write path performs, in source order:
`os.makedirs(key_dir, exist_ok=True)`, then `open(file_path, 'wb')`
(which truncates/creates the file), one `f.write(buffer)`, and the close on
leaving the `with` block.  There is no temporary file and no rename. -/

inductive FsOp where
  | mkdirs (path : String)
  | openTrunc (path : String)
  | writeBytes (path : String) (data : List Byte)
  | closeFile (path : String)
  | rename (src dst : String)
deriving Repr, DecidableEq

/-- The operations `finalize_upload` performs on the successful path (after
the truthiness guard), in order. -/
def finalize_upload_ops (fm : FileManager) : List FsOp :=
  if !optStrTruthy fm.uploadKey || !optStrTruthy fm.uploadFilename then []
  else
    let key_dir := pyJoin fm.uploadsDir (fm.uploadKey.getD "")
    let file_path := pyJoin key_dir (fm.uploadFilename.getD "")
    [FsOp.mkdirs key_dir,
     FsOp.openTrunc file_path,
     FsOp.writeBytes file_path fm.uploadBuffer,
     FsOp.closeFile file_path]

/-- Effect of one filesystem operation on the file map: a truncating open
creates/empties the file, a write appends to it, rename moves contents. -/
def applyFsOp (fs : FileSystem) : FsOp → FileSystem
  | FsOp.mkdirs _ => fs
  | FsOp.openTrunc p => fsWrite fs p []
  | FsOp.writeBytes p d => fsWrite fs p ((fsRead fs p).getD [] ++ d)
  | FsOp.closeFile _ => fs
  | FsOp.rename src dst =>
    match fsRead fs src with
    | some d => fsWrite (fsErase fs src) dst d
    | none => fs

/-- Apply a list of operations left to right. -/
def applyFsOps (fs : FileSystem) (ops : List FsOp) : FileSystem :=
  ops.foldl applyFsOp fs

/-- Does this operation open-truncate or write the target path directly? -/
def touchesTargetDirectly (target : String) (op : FsOp) : Bool :=
  match op with
  | FsOp.openTrunc p => p == target
  | FsOp.writeBytes p _ => p == target
  | _ => false

/-- A write-then-rename-or-atomic-replace discipline for `target`: the bytes
are never opened/written at `target` directly, and they become visible there
through a rename from some other path. -/
def writeThenRenameDiscipline (ops : List FsOp) (target : String) : Prop :=
  (∀ op ∈ ops, touchesTargetDirectly target op = false) ∧
  (∃ tmp, tmp ≠ target ∧ FsOp.rename tmp target ∈ ops)

/-! ## JSON values and the BLE handler (`carlbox_server.py`, class `BLEHandler`)

`json.loads` is an external library call; the handler is embedded as a
function of its outcome: `Except Unit JVal` (`Except.error` = a
`JSONDecodeError`/`UnicodeDecodeError`, the two exception types caught). -/

inductive JVal where
  | jnull
  | jbool (b : Bool)
  | jnum (n : Int)
  | jstr (s : String)
  | jarr (elems : List JVal)
  | jobj (fields : List (String × JVal))
deriving Repr

/-- Python truthiness of a JSON value. -/
def jTruthy : JVal → Bool
  | JVal.jnull => false
  | JVal.jbool b => b
  | JVal.jnum n => !(n == 0)
  | JVal.jstr s => !(s.data = [])
  | JVal.jarr l => !l.isEmpty
  | JVal.jobj l => !l.isEmpty

/-- `dict.get(k, default)`: later duplicate keys override earlier ones when
`json.loads` builds the dict, hence the reverse lookup. -/
def jGet (fields : List (String × JVal)) (k : String) (dflt : JVal) : JVal :=
  match fields.reverse.find? fun p => p.1 == k with
  | some p => p.2
  | none => dflt

/-- Python `v == "s"` for a JSON value against a string literal. -/
def isStrEq (v : JVal) (s : String) : Bool :=
  match v with
  | JVal.jstr t => t == s
  | _ => false

/-- Python `int(...)`-compatible view of a JSON value for the comparison
`size <= 0` (bools are ints in Python); `none` means the comparison raises
`TypeError`. -/
def jAsInt : JVal → Option Int
  | JVal.jnum n => some n
  | JVal.jbool b => some (if b then 1 else 0)
  | _ => none

/-- Status payloads written to the transfer-status characteristic. -/
inductive Status where
  | idle
  | receivingSt (key filename : Option String) (bytesReceived : Nat) (bytesExpected : Int)
  | ready
  | errorMsg (msg : String)
  | errorUnknownAction (action : JVal)
  | errorBare
  | deleted
  | complete
deriving Repr

/-- A notification sent by the handler: a transfer-status update or a
file-list update. -/
inductive Note where
  | status (s : Status)
  | fileList (l : List (String × List String))
deriving Repr

/-- `get_transfer_status`. -/
def get_transfer_status (fm : FileManager) : Status :=
  if !upload_in_progress fm then Status.idle
  else
    Status.receivingSt fm.uploadKey fm.uploadFilename
      (bytes_received fm) fm.uploadExpectedSize

/-- Uncaught Python exceptions the handler can raise. -/
inductive PyErr where
  | attributeError
  | typeError
deriving Repr, DecidableEq

/-- `BLEHandler._handle_command`: decode failure is caught and reported;
a decoded non-object makes `cmd.get("action")` raise `AttributeError`,
which nothing catches; otherwise dispatch on the `action` field. -/
def handle_command (fm : FileManager) (fs : FileSystem)
    (dirs : String → Bool × List String) (decoded : Except Unit JVal) :
    Except PyErr (FileManager × FileSystem × List Note) :=
  match decoded with
  | Except.error _ =>
    Except.ok (fm, fs, [Note.status (Status.errorMsg "invalid JSON")])
  | Except.ok v =>
    match v with
    | JVal.jobj fields =>
      let action := jGet fields "action" JVal.jnull
      if isStrEq action "upload" then
        let keyV := jGet fields "key" (JVal.jstr "")
        let fnV := jGet fields "filename" (JVal.jstr "")
        let szV := jGet fields "size" (JVal.jnum 0)
        if !jTruthy keyV then
          Except.ok (fm, fs, [Note.status (Status.errorMsg "missing key/filename/size")])
        else if !jTruthy fnV then
          Except.ok (fm, fs, [Note.status (Status.errorMsg "missing key/filename/size")])
        else
          match jAsInt szV with
          | none => Except.error PyErr.typeError
          | some n =>
            if n ≤ 0 then
              Except.ok (fm, fs, [Note.status (Status.errorMsg "missing key/filename/size")])
            else
              match keyV, fnV with
              | JVal.jstr k, JVal.jstr f =>
                Except.ok (begin_upload fm k f n, fs, [Note.status Status.ready])
              | _, _ => Except.error PyErr.typeError
      else if isStrEq action "delete" then
        let keyV := jGet fields "key" (JVal.jstr "")
        let fnV := jGet fields "filename" (JVal.jstr "")
        if !jTruthy keyV || !jTruthy fnV then
          Except.ok (fm, fs, [Note.status (Status.errorMsg "missing key/filename")])
        else
          match keyV, fnV with
          | JVal.jstr k, JVal.jstr f =>
            let r := delete_file fm fs k f
            Except.ok (fm, r.1,
              [Note.status (if r.2 then Status.deleted else Status.errorBare),
               Note.fileList (list_all_files fm.uploadsDir dirs)])
          | _, _ => Except.error PyErr.typeError
      else
        Except.ok (fm, fs, [Note.status (Status.errorUnknownAction action)])
    | _ => Except.error PyErr.attributeError

/-- Result of one transfer-chunk callback. -/
structure TransferStepResult where
  fm : FileManager
  fs : FileSystem
  notes : List Note
deriving Repr

/-- `BLEHandler._handle_transfer_chunk`: drop the chunk if no upload is in
progress; otherwise buffer it; on completion finalize and notify
complete/error plus the file list; otherwise notify progress only when
`total % (CHUNK_SIZE * 10) < CHUNK_SIZE`. -/
def handle_transfer_chunk (fm : FileManager) (fs : FileSystem)
    (dirs : String → Bool × List String) (writeOk : Bool) (value : List Byte) :
    TransferStepResult :=
  if !upload_in_progress fm then ⟨fm, fs, []⟩
  else
    let step := receive_chunk fm value
    let fm1 := step.1
    let total := step.2
    if upload_complete fm1 then
      let r := finalize_upload fm1 fs writeOk
      ⟨r.fm, r.fs,
        [Note.status (if r.ok then Status.complete else Status.errorBare),
         Note.fileList (list_all_files fm.uploadsDir dirs)]⟩
    else if total % (CHUNK_SIZE * 10) < CHUNK_SIZE then
      ⟨fm1, fs, [Note.status (get_transfer_status fm1)]⟩
    else
      ⟨fm1, fs, []⟩

/-- Deliver a sequence of chunks through `_handle_transfer_chunk`,
accumulating all notifications in order. -/
def runChunks (fm : FileManager) (fs : FileSystem)
    (dirs : String → Bool × List String) (writeOk : Bool) :
    List (List Byte) → TransferStepResult
  | [] => ⟨fm, fs, []⟩
  | c :: cs =>
    let r := handle_transfer_chunk fm fs dirs writeOk c
    let r' := runChunks r.fm r.fs dirs writeOk cs
    ⟨r'.fm, r'.fs, r.notes ++ r'.notes⟩

/-- Is a notification a progress (receiving) status notification? -/
def isProgressNote : Note → Bool
  | Note.status (Status.receivingSt _ _ _ _) => true
  | _ => false

/-- Number of progress notifications in a notification list. -/
def progressCount (notes : List Note) : Nat :=
  notes.countP isProgressNote

/-! ## SampleLoader (`midi_sampler.py`, class `SampleLoader`)

`pygame.mixer.Sound` handles are opaque; loading is an environment function
`loadSound : String → Option Sound` (`none` = `pygame.error`/`OSError` while
loading).  The OS directory view for the loader is
`env : String → Bool × List (String × Nat)`, mapping a directory path to
(isdir, listing of (name, mtime)); mtimes are abstract numbers, only compared
for equality. -/

/-- Opaque playable sound handle. -/
abbrev Sound := Nat

/-- `_find_sample_file(key_folder)`: list the directory, keep names with a
supported extension, pair each with its full path and mtime, sort by the full
path (`key=lambda x: x[0]`, Python's stable sort), and return the first, or
`none` when the directory is missing or has no candidate.  Note: there is no
hidden-file test here, unlike `FileManager.list_all_files`. -/
def find_sample_file (folderPath key_folder : String)
    (dirExists : Bool) (listing : List (String × Nat)) : Option (String × Nat) :=
  if !dirExists then none
  else
    let target_dir := pyJoin folderPath key_folder
    let valid_files :=
      (listing.filter fun p => hasSupportedExt p.1).map
        fun p => (pyJoin target_dir p.1, p.2)
    (pySort (fun a b => strLt a.1 b.1) valid_files).head?

/-- Association-list lookup keyed by MIDI note (models dict lookup). -/
def alLookup (l : List (Nat × α)) (k : Nat) : Option α :=
  (l.find? fun p => p.1 == k).map (·.2)

/-- Dict assignment: replace in place or append. -/
def alInsert : List (Nat × α) → Nat → α → List (Nat × α)
  | [], k, v => [(k, v)]
  | (k', v') :: rest, k, v =>
    if k' == k then (k, v) :: rest else (k', v') :: alInsert rest k v

/-- `dict.pop(k, None)`. -/
def alErase (l : List (Nat × α)) (k : Nat) : List (Nat × α) :=
  l.filter fun p => !(p.1 == k)

/-- Mutable state of `SampleLoader` (the scan-time throttle fields live in
real time and are handled at the call site, see `scan_and_update`). -/
structure LoaderState where
  folderPath : String
  samples : List (Nat × Sound)
  fileCache : List (Nat × (String × Nat))
deriving Repr

/-- `SampleLoader.__init__`. -/
def initLoader (folderPath : String) : LoaderState :=
  { folderPath := folderPath, samples := [], fileCache := [] }

/-- Body of one iteration of the `scan_and_update` loop for one
`(key_folder, midi_note)` pair: load on new/changed file (keeping the old
entry if loading fails), unload on removal, otherwise no-op.  Returns the new
state and whether this slot changed. -/
def scanSlot (env : String → Bool × List (String × Nat))
    (loadSound : String → Option Sound)
    (st : LoaderState) (kf : String × Nat) : LoaderState × Bool :=
  let key_folder := kf.1
  let midi_note := kf.2
  let target_dir := pyJoin st.folderPath key_folder
  let v := env target_dir
  match find_sample_file st.folderPath key_folder v.1 v.2 with
  | some fm =>
    let cached := alLookup st.fileCache midi_note
    if cached = some fm then (st, false)
    else
      match loadSound fm.1 with
      | some sound =>
        ({ st with
            samples := alInsert st.samples midi_note sound
            fileCache := alInsert st.fileCache midi_note fm }, true)
      | none => (st, false)
  | none =>
    match alLookup st.fileCache midi_note with
    | some _ =>
      ({ st with
          samples := alErase st.samples midi_note
          fileCache := alErase st.fileCache midi_note }, true)
    | none => (st, false)

/-- `scan_and_update` after its wall-clock throttle check (`time.time()` is
external; `throttlePassed` is the outcome of
`on_progress is not None or now - last_scan >= scan_interval`): fold the slot
scan over `NOTE_MAPPING`, returning whether any slot changed. -/
def scan_and_update (st : LoaderState) (env : String → Bool × List (String × Nat))
    (loadSound : String → Option Sound) (throttlePassed : Bool) :
    LoaderState × Bool :=
  if !throttlePassed then (st, false)
  else
    NOTE_MAPPING.foldl
      (fun acc kf =>
        let r := scanSlot env loadSound acc.1 kf
        (r.1, acc.2 || r.2))
      (st, false)

/-- `SampleLoader.get_sample`. -/
def get_sample (st : LoaderState) (midi_note : Nat) : Option Sound :=
  alLookup st.samples midi_note

/-! ## Playback dispatch (`midi_sampler.py`, `handle_midi_message`)

The mixer channel is modelled as `Option ChannelState`: `none` when the
global `current_channel` was never initialized, `some c` otherwise, where
`c : Option Sound` is the sound currently playing (`none` = not busy). -/

/-- What the exclusive mixer channel is doing: `none` = idle. -/
abbrev ChannelState := Option Sound

/-- A MIDI message as the sampler sees it. -/
structure MidiMsg where
  type : String
  note : Nat
  velocity : Nat
deriving Repr

/-- `if current_channel and current_channel.get_busy(): current_channel.stop()`. -/
def stopIfBusy : Option ChannelState → Option ChannelState
  | some (some _) => some none
  | other => other

/-- `handle_midi_message(msg, loader)` acting on the channel: stop-slot
triggers stop playback unconditionally; other mapped notes play their sample
(preempting) when one is loaded; everything else is a no-op.  A play on an
uninitialized channel would raise `AttributeError` (`None.play`). -/
def handle_midi_message (msg : MidiMsg) (loaderSamples : List (Nat × Sound))
    (channel : Option ChannelState) : Except PyErr (Option ChannelState) :=
  if !(msg.type == "note_on" || msg.type == "note_off") then Except.ok channel
  else if msg.type == "note_on" && decide (0 < msg.velocity) then
    match NOTE_TO_KEY msg.note with
    | some key_name =>
      if key_name == STOP_KEY_NAME then
        Except.ok (stopIfBusy channel)
      else
        match alLookup loaderSamples msg.note with
        | some sound =>
          match stopIfBusy channel with
          | some _ => Except.ok (some (some sound))
          | none => Except.error PyErr.attributeError
        | none => Except.ok channel
    | none => Except.ok channel
  else Except.ok channel

/-! ## Helper lemmas: the code-point order -/

theorem charListLt_nil_nil : charListLt [] [] = false := rfl

theorem charListLt_nil_cons (c : Char) (cs : List Char) :
    charListLt [] (c :: cs) = true := rfl

theorem charListLt_cons_nil (c : Char) (cs : List Char) :
    charListLt (c :: cs) [] = false := rfl

theorem charListLt_cons (a b : Char) (as bs : List Char) :
    charListLt (a :: as) (b :: bs) =
      if a.toNat < b.toNat then true
      else if b.toNat < a.toNat then false
      else charListLt as bs := rfl

theorem charListLe_nil (l : List Char) : charListLe [] l = true := rfl

theorem charListLe_cons_nil (c : Char) (cs : List Char) :
    charListLe (c :: cs) [] = false := rfl

theorem charListLe_cons (a b : Char) (as bs : List Char) :
    charListLe (a :: as) (b :: bs) =
      if a.toNat < b.toNat then true
      else if b.toNat < a.toNat then false
      else charListLe as bs := rfl

theorem charListLt_irrefl : ∀ l : List Char, charListLt l l = false
  | [] => rfl
  | a :: as => by
    rw [charListLt_cons, if_neg (Nat.lt_irrefl _), if_neg (Nat.lt_irrefl _)]
    exact charListLt_irrefl as

theorem charListLt_cons_iff (a b : Char) (as bs : List Char) :
    charListLt (a :: as) (b :: bs) = true ↔
      a.toNat < b.toNat ∨ (a.toNat = b.toNat ∧ charListLt as bs = true) := by
  rw [charListLt_cons]
  rcases Nat.lt_trichotomy a.toNat b.toNat with h | h | h
  · rw [if_pos h]
    simp [h]
  · rw [if_neg (by omega), if_neg (by omega)]
    constructor
    · intro hh
      exact Or.inr ⟨h, hh⟩
    · rintro (hh | ⟨_, hh⟩)
      · omega
      · exact hh
  · rw [if_neg (by omega), if_pos h]
    constructor
    · intro hh
      exact Bool.noConfusion hh
    · rintro (hh | ⟨hh, _⟩) <;> omega

theorem charListLt_asymm :
    ∀ a b : List Char, charListLt a b = true → charListLt b a = false
  | [], [], h => Bool.noConfusion h
  | [], _ :: _, _ => rfl
  | _ :: _, [], h => Bool.noConfusion h
  | a :: as, b :: bs, h => by
    rw [charListLt_cons_iff] at h
    cases e : charListLt (b :: bs) (a :: as)
    · rfl
    · rw [charListLt_cons_iff] at e
      rcases h with h | ⟨h1, h2⟩ <;> rcases e with e | ⟨e1, e2⟩
      · omega
      · omega
      · omega
      · exact absurd e2 (by simp [charListLt_asymm as bs h2])

theorem charListLt_trans :
    ∀ a b c : List Char, charListLt a b = true → charListLt b c = true →
      charListLt a c = true
  | [], [], _, h1, _ => Bool.noConfusion h1
  | _ :: _, [], _, h1, _ => Bool.noConfusion h1
  | [], _ :: _, [], _, h2 => Bool.noConfusion h2
  | [], _ :: _, _ :: _, _, _ => rfl
  | _ :: _, _ :: _, [], _, h2 => Bool.noConfusion h2
  | a :: as, b :: bs, c :: cs, h1, h2 => by
    rw [charListLt_cons_iff] at h1 h2 ⊢
    rcases h1 with h1 | ⟨h1, h1'⟩ <;> rcases h2 with h2 | ⟨h2, h2'⟩
    · exact Or.inl (by omega)
    · exact Or.inl (by omega)
    · exact Or.inl (by omega)
    · exact Or.inr ⟨by omega, charListLt_trans as bs cs h1' h2'⟩

theorem charListLe_of_not_lt :
    ∀ a b : List Char, charListLt b a = false → charListLe a b = true
  | [], _, _ => rfl
  | _ :: _, [], h => Bool.noConfusion h
  | a :: as, b :: bs, h => by
    rw [charListLt_cons] at h
    rw [charListLe_cons]
    rcases Nat.lt_trichotomy a.toNat b.toNat with h' | h' | h'
    · rw [if_pos h']
    · rw [if_neg (by omega), if_neg (by omega)]
      rw [if_neg (by omega), if_neg (by omega)] at h
      exact charListLe_of_not_lt as bs h
    · rw [if_pos h'] at h
      exact Bool.noConfusion h

theorem charListLt_append_left :
    ∀ p a b : List Char, charListLt (p ++ a) (p ++ b) = charListLt a b
  | [], _, _ => rfl
  | c :: p, a, b => by
    show charListLt (c :: (p ++ a)) (c :: (p ++ b)) = _
    rw [charListLt_cons, if_neg (Nat.lt_irrefl _), if_neg (Nat.lt_irrefl _)]
    exact charListLt_append_left p a b

/-! ## Helper lemmas: the stable sort -/

theorem mem_insertOrd (lt : α → α → Bool) (x z : α) :
    ∀ l, z ∈ insertOrd lt x l ↔ z = x ∨ z ∈ l
  | [] => by simp [insertOrd]
  | y :: ys => by
    unfold insertOrd
    by_cases h : lt x y
    · simp [h]
    · simp [h, mem_insertOrd lt x z ys]
      tauto

theorem pairwise_insertOrd (lt : α → α → Bool)
    (asymm : ∀ a b, lt a b = true → lt b a = false)
    (trns : ∀ a b c, lt a b = true → lt b c = true → lt a c = true)
    (x : α) :
    ∀ l, l.Pairwise (fun a b => lt b a = false) →
      (insertOrd lt x l).Pairwise (fun a b => lt b a = false)
  | [], _ => by simp [insertOrd]
  | y :: ys, h => by
    rw [List.pairwise_cons] at h
    obtain ⟨hy, hys⟩ := h
    unfold insertOrd
    by_cases hxy : lt x y = true
    · rw [if_pos hxy, List.pairwise_cons]
      refine ⟨?_, List.pairwise_cons.mpr ⟨hy, hys⟩⟩
      intro z hz
      rcases List.mem_cons.mp hz with rfl | hz'
      · exact asymm _ _ hxy
      · cases e : lt z x
        · rfl
        · exact absurd (trns z x y e hxy) (by simp [hy z hz'])
    · rw [if_neg hxy, List.pairwise_cons]
      refine ⟨?_, pairwise_insertOrd lt asymm trns x ys hys⟩
      intro z hz
      rcases (mem_insertOrd lt x z ys).mp hz with rfl | hz'
      · exact Bool.not_eq_true _ ▸ (by simpa using hxy)
      · exact hy z hz'

theorem mem_pySortAux (lt : α → α → Bool) (z : α) :
    ∀ (l acc : List α), z ∈ pySortAux lt acc l ↔ z ∈ acc ∨ z ∈ l
  | [], acc => by simp [pySortAux]
  | x :: xs, acc => by
    unfold pySortAux
    rw [mem_pySortAux lt z xs (insertOrd lt x acc), mem_insertOrd]
    simp
    tauto

theorem mem_pySort (lt : α → α → Bool) (z : α) (l : List α) :
    z ∈ pySort lt l ↔ z ∈ l := by
  unfold pySort
  rw [mem_pySortAux]
  simp

theorem pairwise_pySortAux (lt : α → α → Bool)
    (asymm : ∀ a b, lt a b = true → lt b a = false)
    (trns : ∀ a b c, lt a b = true → lt b c = true → lt a c = true) :
    ∀ (l acc : List α), acc.Pairwise (fun a b => lt b a = false) →
      (pySortAux lt acc l).Pairwise (fun a b => lt b a = false)
  | [], _, h => h
  | x :: xs, acc, h =>
    pairwise_pySortAux lt asymm trns xs (insertOrd lt x acc)
      (pairwise_insertOrd lt asymm trns x acc h)

theorem pairwise_pySort (lt : α → α → Bool)
    (asymm : ∀ a b, lt a b = true → lt b a = false)
    (trns : ∀ a b c, lt a b = true → lt b c = true → lt a c = true)
    (l : List α) :
    (pySort lt l).Pairwise (fun a b => lt b a = false) :=
  pairwise_pySortAux lt asymm trns l [] (by simp)

/-- The first element of the sorted list is minimal: nothing in the input
sorts strictly before it. -/
theorem pySort_min (lt : α → α → Bool)
    (irrefl : ∀ a, lt a a = false)
    (asymm : ∀ a b, lt a b = true → lt b a = false)
    (trns : ∀ a b c, lt a b = true → lt b c = true → lt a c = true)
    (l : List α) (h : α) (t : List α) (e : pySort lt l = h :: t) :
    ∀ z ∈ l, lt z h = false := by
  intro z hz
  have hz' : z ∈ h :: t := e ▸ (mem_pySort lt z l).mpr hz
  rcases List.mem_cons.mp hz' with rfl | hzt
  · exact irrefl z
  · have hp := pairwise_pySort lt asymm trns l
    rw [e, List.pairwise_cons] at hp
    exact hp.1 z hzt

/-! ## Helper lemmas: paths and the filesystem -/

/-- The character prefix `pyJoin P ·` prepends to a relative name. -/
def joinChars (P : String) : List Char :=
  if P.data = [] then [] else if endsSlash P then P.data else P.data ++ ['/']

theorem pyJoin_data (P name : String) (h : startsSlash name = false) :
    (pyJoin P name).data = joinChars P ++ name.data := by
  unfold pyJoin joinChars
  rw [if_neg (by simp [h])]
  by_cases h1 : P.data = []
  · simp [h1]
  · by_cases h2 : endsSlash P
    · simp [h1, h2]
    · simp [h1, h2, List.append_assoc]

theorem strLt_pyJoin (P a b : String)
    (ha : startsSlash a = false) (hb : startsSlash b = false) :
    strLt (pyJoin P a) (pyJoin P b) = charListLt a.data b.data := by
  unfold strLt
  rw [pyJoin_data P a ha, pyJoin_data P b hb, charListLt_append_left]

theorem fsWrite_nil (p : String) (d : List Byte) : fsWrite [] p d = [(p, d)] := rfl

theorem fsWrite_cons (q : String) (e : List Byte) (rest : FileSystem)
    (p : String) (d : List Byte) :
    fsWrite ((q, e) :: rest) p d =
      if q == p then (p, d) :: rest else (q, e) :: fsWrite rest p d := rfl

theorem fsRead_nil (p : String) : fsRead [] p = none := rfl

theorem fsRead_cons (q : String) (e : List Byte) (rest : FileSystem) (p : String) :
    fsRead ((q, e) :: rest) p = if q == p then some e else fsRead rest p := rfl

theorem fsRead_fsWrite_self :
    ∀ (fs : FileSystem) (p : String) (d : List Byte),
      fsRead (fsWrite fs p d) p = some d
  | [], p, d => by
    rw [fsWrite_nil, fsRead_cons, if_pos (by simp)]
  | (q, e) :: rest, p, d => by
    rw [fsWrite_cons]
    by_cases h : q == p
    · rw [if_pos h, fsRead_cons, if_pos (by simp)]
    · rw [if_neg h, fsRead_cons, if_neg h]
      exact fsRead_fsWrite_self rest p d

/-- Delivering a list of chunks through `receive_chunk`. -/
def deliverChunks (fm : FileManager) (chunks : List (List Byte)) : FileManager :=
  chunks.foldl (fun acc c => (receive_chunk acc c).1) fm

theorem deliverChunks_eq :
    ∀ (chunks : List (List Byte)) (fm : FileManager),
      deliverChunks fm chunks =
        { fm with uploadBuffer := fm.uploadBuffer ++ chunks.flatten }
  | [], fm => by simp [deliverChunks]
  | c :: cs, fm => by
    unfold deliverChunks
    rw [List.foldl_cons]
    have := deliverChunks_eq cs { fm with uploadBuffer := fm.uploadBuffer ++ c }
    unfold deliverChunks at this
    simp only [receive_chunk] at *
    rw [this]
    simp [List.append_assoc]

/-- On a session whose key and filename are both truthy, `finalize_upload`
takes the write path: reset state, write the buffer to the joined path. -/
theorem finalize_upload_truthy (fm : FileManager) (fs : FileSystem) (writeOk : Bool)
    (hkey : optStrTruthy fm.uploadKey = true) (hfn : optStrTruthy fm.uploadFilename = true) :
    finalize_upload fm fs writeOk =
      if writeOk then
        ⟨reset_upload fm,
         fsWrite fs
           (pyJoin (pyJoin fm.uploadsDir (fm.uploadKey.getD ""))
             (fm.uploadFilename.getD "")) fm.uploadBuffer,
         true⟩
      else ⟨reset_upload fm, fs, false⟩ := by
  unfold finalize_upload
  rw [if_neg (by simp [hkey, hfn])]

/-- Nonempty strings have nonempty character data. -/
theorem data_ne_nil_of_ne_empty {s : String} (h : s ≠ "") : ¬(s.data = []) :=
  fun hd => h (String.ext hd)

/-- The session state after `begin_upload` on a fresh manager followed by a
chunk sequence: buffer is exactly the concatenation. -/
theorem deliver_after_begin (uploadsDir key filename : String) (N : Int)
    (chunks : List (List Byte)) :
    deliverChunks (begin_upload (initFileManager uploadsDir) key filename N) chunks =
      { uploadsDir := uploadsDir
        uploadKey := some key
        uploadFilename := some (pyBasename filename)
        uploadExpectedSize := N
        uploadBuffer := chunks.flatten } := by
  rw [deliverChunks_eq]
  simp [begin_upload, initFileManager]

/-- C1 (counterexample): the round-trip claim quantifies over every file
name, but for `begin("Key1", "sounds/", 1)` the sanitized name
`basename("sounds/")` is empty, so after delivering exactly N = 1 bytes,
`finalize_upload` hits the falsy-filename guard: it returns failure and
writes no file at all — no file named `basename("sounds/")` with the sent
contents is produced. -/
theorem upload_roundtrip_counterexample :
    pyBasename "sounds/" = "" ∧
    ([[7]] : List (List Byte)).flatten.length = 1 ∧
    upload_complete
      (deliverChunks (begin_upload (initFileManager "uploads") "Key1" "sounds/" 1) [[7]]) = true ∧
    (finalize_upload
      (deliverChunks (begin_upload (initFileManager "uploads") "Key1" "sounds/" 1) [[7]])
      [] true).ok = false ∧
    (finalize_upload
      (deliverChunks (begin_upload (initFileManager "uploads") "Key1" "sounds/" 1) [[7]])
      [] true).fs = [] :=
  ⟨rfl, rfl, rfl, rfl, rfl⟩

/-- C1 (amended): upload round-trip, additionally assuming the slot string is
non-empty and the file name's base component is non-empty (as the command
validation plus a separator-free file name guarantee): `begin`, chunks
concatenating to exactly N bytes, `finalize` → the session is complete,
finalize succeeds, and the file at `join(uploads_dir, slot,
basename(fileName))` holds byte-for-byte the concatenation of the chunks. -/
theorem upload_roundtrip_amended (uploadsDir key filename : String) (N : Int)
    (chunks : List (List Byte)) (fs : FileSystem)
    (hkey : key ≠ "") (hfn : pyBasename filename ≠ "") (hN : 0 < N)
    (hlen : (chunks.flatten.length : Int) = N) :
    upload_complete
      (deliverChunks (begin_upload (initFileManager uploadsDir) key filename N) chunks) = true ∧
    (finalize_upload
      (deliverChunks (begin_upload (initFileManager uploadsDir) key filename N) chunks)
      fs true).ok = true ∧
    fsRead
      (finalize_upload
        (deliverChunks (begin_upload (initFileManager uploadsDir) key filename N) chunks)
        fs true).fs
      (targetPath uploadsDir key filename) = some chunks.flatten := by
  rw [deliver_after_begin]
  have hkt : optStrTruthy (some key) = true := by
    simp [optStrTruthy, data_ne_nil_of_ne_empty hkey]
  have hft : optStrTruthy (some (pyBasename filename)) = true := by
    simp [optStrTruthy, data_ne_nil_of_ne_empty hfn]
  have hfin := finalize_upload_truthy
    { uploadsDir := uploadsDir, uploadKey := some key,
      uploadFilename := some (pyBasename filename),
      uploadExpectedSize := N, uploadBuffer := chunks.flatten } fs true hkt hft
  refine ⟨?_, ?_, ?_⟩
  · unfold upload_complete
    simp only [Option.isSome_some, Bool.true_and, decide_eq_true_eq]
    omega
  · rw [hfin]
    rfl
  · rw [hfin]
    exact fsRead_fsWrite_self fs _ _

/-- Witness for `upload_roundtrip_amended` at slot Key1, file x.wav, N = 3,
chunks [1,2] and [3]. -/
theorem upload_roundtrip_amended_witness :
    upload_complete
      (deliverChunks (begin_upload (initFileManager "uploads") "Key1" "x.wav" 3)
        [[1, 2], [3]]) = true ∧
    (finalize_upload
      (deliverChunks (begin_upload (initFileManager "uploads") "Key1" "x.wav" 3)
        [[1, 2], [3]]) [] true).ok = true ∧
    fsRead
      (finalize_upload
        (deliverChunks (begin_upload (initFileManager "uploads") "Key1" "x.wav" 3)
          [[1, 2], [3]]) [] true).fs
      (targetPath "uploads" "Key1" "x.wav") = some ([[1, 2], [3]] : List (List Byte)).flatten :=
  upload_roundtrip_amended "uploads" "Key1" "x.wav" 3 [[1, 2], [3]] []
    (by decide) (by decide) (by decide) (by decide)

/-- C5: over-delivery tolerance — after `begin` with expected size N and any
chunk sequence, the session reports complete exactly when the buffered total
is ≥ N; and whenever the total is ≥ N (in particular N + K with K > 0),
finalize succeeds and writes all buffered bytes, with no truncation to N. -/
theorem over_delivery_tolerance (uploadsDir key filename : String) (N : Int)
    (chunks : List (List Byte)) (fs : FileSystem)
    (hkey : key ≠ "") (hfn : pyBasename filename ≠ "") :
    (upload_complete
        (deliverChunks (begin_upload (initFileManager uploadsDir) key filename N) chunks) = true
      ↔ N ≤ (chunks.flatten.length : Int)) ∧
    (N ≤ (chunks.flatten.length : Int) →
      (finalize_upload
        (deliverChunks (begin_upload (initFileManager uploadsDir) key filename N) chunks)
        fs true).ok = true ∧
      fsRead
        (finalize_upload
          (deliverChunks (begin_upload (initFileManager uploadsDir) key filename N) chunks)
          fs true).fs
        (targetPath uploadsDir key filename) = some chunks.flatten) := by
  rw [deliver_after_begin]
  have hkt : optStrTruthy (some key) = true := by
    simp [optStrTruthy, data_ne_nil_of_ne_empty hkey]
  have hft : optStrTruthy (some (pyBasename filename)) = true := by
    simp [optStrTruthy, data_ne_nil_of_ne_empty hfn]
  have hfin := finalize_upload_truthy
    { uploadsDir := uploadsDir, uploadKey := some key,
      uploadFilename := some (pyBasename filename),
      uploadExpectedSize := N, uploadBuffer := chunks.flatten } fs true hkt hft
  refine ⟨?_, fun _ => ⟨?_, ?_⟩⟩
  · unfold upload_complete
    simp only [Option.isSome_some, Bool.true_and, decide_eq_true_eq]
  · rw [hfin]
    rfl
  · rw [hfin]
    exact fsRead_fsWrite_self fs _ _

/-- Witness for `over_delivery_tolerance` with N = 3 and 5 delivered bytes
(K = 2 extra): completion and a full 5-byte file. -/
theorem over_delivery_tolerance_witness :
    (upload_complete
        (deliverChunks (begin_upload (initFileManager "uploads") "Key1" "x.wav" 3)
          [[1, 2], [3, 4, 5]]) = true
      ↔ (3 : Int) ≤ (([[1, 2], [3, 4, 5]] : List (List Byte)).flatten.length : Int)) ∧
    ((3 : Int) ≤ (([[1, 2], [3, 4, 5]] : List (List Byte)).flatten.length : Int) →
      (finalize_upload
        (deliverChunks (begin_upload (initFileManager "uploads") "Key1" "x.wav" 3)
          [[1, 2], [3, 4, 5]]) [] true).ok = true ∧
      fsRead
        (finalize_upload
          (deliverChunks (begin_upload (initFileManager "uploads") "Key1" "x.wav" 3)
            [[1, 2], [3, 4, 5]]) [] true).fs
        (targetPath "uploads" "Key1" "x.wav")
        = some ([[1, 2], [3, 4, 5]] : List (List Byte)).flatten) :=
  over_delivery_tolerance "uploads" "Key1" "x.wav" 3 [[1, 2], [3, 4, 5]] []
    (by decide) (by decide)

/-- C6 (counterexample): `begin_upload("Key1", "sounds/", 5)` yields an
active session (`upload_in_progress`) whose sanitized filename is empty; on
it `finalize_upload` takes the early `return False` before the
`try/finally`, so the session is NOT reset — the key survives. -/
theorem finalize_reset_counterexample :
    upload_in_progress (begin_upload (initFileManager "uploads") "Key1" "sounds/" 5) = true ∧
    (finalize_upload (begin_upload (initFileManager "uploads") "Key1" "sounds/" 5) [] true).ok
      = false ∧
    (finalize_upload (begin_upload (initFileManager "uploads") "Key1" "sounds/" 5) [] true).fm
      = begin_upload (initFileManager "uploads") "Key1" "sounds/" 5 ∧
    (finalize_upload (begin_upload (initFileManager "uploads") "Key1" "sounds/" 5) [] true).fm.uploadKey
      = some "Key1" :=
  ⟨rfl, rfl, rfl, rfl⟩

/-- C6 (amended): finalize resets the session to Idle — key and filename
cleared, buffer emptied, expected size zeroed — regardless of write success
or failure, provided both the key and the sanitized filename are truthy
(non-empty); with an empty key or sanitized filename the early guard returns
failure without resetting. -/
theorem finalize_resets_when_names_truthy (fm : FileManager) (fs : FileSystem) (writeOk : Bool)
    (hkey : optStrTruthy fm.uploadKey = true) (hfn : optStrTruthy fm.uploadFilename = true) :
    (finalize_upload fm fs writeOk).fm = reset_upload fm ∧
    (finalize_upload fm fs writeOk).fm.uploadKey = none ∧
    (finalize_upload fm fs writeOk).fm.uploadFilename = none ∧
    (finalize_upload fm fs writeOk).fm.uploadExpectedSize = 0 ∧
    (finalize_upload fm fs writeOk).fm.uploadBuffer = [] := by
  rw [finalize_upload_truthy fm fs writeOk hkey hfn]
  cases writeOk
  · exact ⟨rfl, rfl, rfl, rfl, rfl⟩
  · exact ⟨rfl, rfl, rfl, rfl, rfl⟩

/-- Witness for `finalize_resets_when_names_truthy` on a concrete receiving
session with a failed disk write. -/
theorem finalize_resets_when_names_truthy_witness :
    (finalize_upload
      { uploadsDir := "uploads", uploadKey := some "Key2",
        uploadFilename := some "x.wav", uploadExpectedSize := 2,
        uploadBuffer := [1, 2] } [] false).fm
      = reset_upload
        { uploadsDir := "uploads", uploadKey := some "Key2",
          uploadFilename := some "x.wav", uploadExpectedSize := 2,
          uploadBuffer := [1, 2] } ∧
    (finalize_upload
      { uploadsDir := "uploads", uploadKey := some "Key2",
        uploadFilename := some "x.wav", uploadExpectedSize := 2,
        uploadBuffer := [1, 2] } [] false).fm.uploadKey = none ∧
    (finalize_upload
      { uploadsDir := "uploads", uploadKey := some "Key2",
        uploadFilename := some "x.wav", uploadExpectedSize := 2,
        uploadBuffer := [1, 2] } [] false).fm.uploadFilename = none ∧
    (finalize_upload
      { uploadsDir := "uploads", uploadKey := some "Key2",
        uploadFilename := some "x.wav", uploadExpectedSize := 2,
        uploadBuffer := [1, 2] } [] false).fm.uploadExpectedSize = 0 ∧
    (finalize_upload
      { uploadsDir := "uploads", uploadKey := some "Key2",
        uploadFilename := some "x.wav", uploadExpectedSize := 2,
        uploadBuffer := [1, 2] } [] false).fm.uploadBuffer = [] :=
  finalize_resets_when_names_truthy
    { uploadsDir := "uploads", uploadKey := some "Key2",
      uploadFilename := some "x.wav", uploadExpectedSize := 2,
      uploadBuffer := [1, 2] } [] false (by decide) (by decide)

/-- C2 (counterexample): on a concrete complete session, the operation trace
of `finalize_upload` open-truncates and writes the destination path itself —
violating the write-then-rename-or-atomic-replace discipline — and after the
truncating open (trace prefix of length 2) a reader observes the destination
as an existing file whose contents (empty) differ from the final bytes: a
half-written state is observable. -/
theorem finalize_not_write_then_rename_counterexample :
    ¬ writeThenRenameDiscipline
        (finalize_upload_ops
          { uploadsDir := "uploads", uploadKey := some "Key1",
            uploadFilename := some "x.wav", uploadExpectedSize := 3,
            uploadBuffer := [1, 2, 3] })
        "uploads/Key1/x.wav" ∧
    fsRead
      (applyFsOps []
        ((finalize_upload_ops
          { uploadsDir := "uploads", uploadKey := some "Key1",
            uploadFilename := some "x.wav", uploadExpectedSize := 3,
            uploadBuffer := [1, 2, 3] }).take 2))
      "uploads/Key1/x.wav" = some [] ∧
    fsRead
      (applyFsOps []
        (finalize_upload_ops
          { uploadsDir := "uploads", uploadKey := some "Key1",
            uploadFilename := some "x.wav", uploadExpectedSize := 3,
            uploadBuffer := [1, 2, 3] }))
      "uploads/Key1/x.wav" = some [1, 2, 3] := by
  refine ⟨fun h => ?_, by decide, by decide⟩
  have hmem : FsOp.openTrunc "uploads/Key1/x.wav" ∈
      finalize_upload_ops
        { uploadsDir := "uploads", uploadKey := some "Key1",
          uploadFilename := some "x.wav", uploadExpectedSize := 3,
          uploadBuffer := [1, 2, 3] } := by decide
  have := h.1 _ hmem
  exact absurd this (by decide)

/-- C2 (amended): for every session with truthy key and filename,
finalize's disk trace is exactly makedirs, a truncating open of the final
destination path, a single write of the whole buffer, and close — it contains
no rename at all, and applying the first two operations leaves the
destination readable as an (empty) file, so visibility at the target is not a
single atomic replacement. -/
theorem finalize_direct_write_trace (fm : FileManager)
    (hkey : optStrTruthy fm.uploadKey = true) (hfn : optStrTruthy fm.uploadFilename = true) :
    finalize_upload_ops fm =
      [FsOp.mkdirs (pyJoin fm.uploadsDir (fm.uploadKey.getD "")),
       FsOp.openTrunc
         (pyJoin (pyJoin fm.uploadsDir (fm.uploadKey.getD "")) (fm.uploadFilename.getD "")),
       FsOp.writeBytes
         (pyJoin (pyJoin fm.uploadsDir (fm.uploadKey.getD "")) (fm.uploadFilename.getD ""))
         fm.uploadBuffer,
       FsOp.closeFile
         (pyJoin (pyJoin fm.uploadsDir (fm.uploadKey.getD "")) (fm.uploadFilename.getD ""))] ∧
    (∀ src dst, FsOp.rename src dst ∉ finalize_upload_ops fm) ∧
    (∀ fs : FileSystem,
      fsRead (applyFsOps fs ((finalize_upload_ops fm).take 2))
        (pyJoin (pyJoin fm.uploadsDir (fm.uploadKey.getD "")) (fm.uploadFilename.getD ""))
        = some []) := by
  have hops : finalize_upload_ops fm =
      [FsOp.mkdirs (pyJoin fm.uploadsDir (fm.uploadKey.getD "")),
       FsOp.openTrunc
         (pyJoin (pyJoin fm.uploadsDir (fm.uploadKey.getD "")) (fm.uploadFilename.getD "")),
       FsOp.writeBytes
         (pyJoin (pyJoin fm.uploadsDir (fm.uploadKey.getD "")) (fm.uploadFilename.getD ""))
         fm.uploadBuffer,
       FsOp.closeFile
         (pyJoin (pyJoin fm.uploadsDir (fm.uploadKey.getD "")) (fm.uploadFilename.getD ""))] := by
    unfold finalize_upload_ops
    rw [if_neg (by simp [hkey, hfn])]
  refine ⟨hops, ?_, ?_⟩
  · intro src dst hmem
    rw [hops] at hmem
    simp at hmem
  · intro fs
    rw [hops]
    show fsRead (applyFsOps fs [FsOp.mkdirs _, FsOp.openTrunc _]) _ = some []
    unfold applyFsOps
    rw [List.foldl_cons, List.foldl_cons, List.foldl_nil]
    exact fsRead_fsWrite_self fs _ []

/-- Witness for `finalize_direct_write_trace` on a concrete session. -/
theorem finalize_direct_write_trace_witness :
    finalize_upload_ops
      { uploadsDir := "uploads", uploadKey := some "Key3",
        uploadFilename := some "y.mp3", uploadExpectedSize := 2,
        uploadBuffer := [9, 9] } =
      [FsOp.mkdirs (pyJoin "uploads" ((some "Key3" : Option String).getD "")),
       FsOp.openTrunc
         (pyJoin (pyJoin "uploads" ((some "Key3" : Option String).getD ""))
           ((some "y.mp3" : Option String).getD "")),
       FsOp.writeBytes
         (pyJoin (pyJoin "uploads" ((some "Key3" : Option String).getD ""))
           ((some "y.mp3" : Option String).getD "")) [9, 9],
       FsOp.closeFile
         (pyJoin (pyJoin "uploads" ((some "Key3" : Option String).getD ""))
           ((some "y.mp3" : Option String).getD ""))] ∧
    (∀ src dst, FsOp.rename src dst ∉
      finalize_upload_ops
        { uploadsDir := "uploads", uploadKey := some "Key3",
          uploadFilename := some "y.mp3", uploadExpectedSize := 2,
          uploadBuffer := [9, 9] }) ∧
    (∀ fs : FileSystem,
      fsRead
        (applyFsOps fs
          ((finalize_upload_ops
            { uploadsDir := "uploads", uploadKey := some "Key3",
              uploadFilename := some "y.mp3", uploadExpectedSize := 2,
              uploadBuffer := [9, 9] }).take 2))
        (pyJoin (pyJoin "uploads" ((some "Key3" : Option String).getD ""))
          ((some "y.mp3" : Option String).getD "")) = some []) :=
  finalize_direct_write_trace
    { uploadsDir := "uploads", uploadKey := some "Key3",
      uploadFilename := some "y.mp3", uploadExpectedSize := 2,
      uploadBuffer := [9, 9] } (by decide) (by decide)

/-- C7: a note-on with positive velocity on note 50 (the designated stop
slot Key1) always stops any in-progress playback and starts nothing: the
channel ends up idle, for every loaded-sample table — including one with no
sample for Key1 — and every prior channel state. -/
theorem stop_slot_semantics (v : Nat) (samples : List (Nat × Sound)) (c : ChannelState)
    (hv : 0 < v) :
    handle_midi_message { type := "note_on", note := 50, velocity := v } samples (some c)
      = Except.ok (some none) := by
  cases c
  · simp [handle_midi_message, hv, NOTE_TO_KEY, NOTE_MAPPING, STOP_KEY_NAME, stopIfBusy,
      List.find?]
  · simp [handle_midi_message, hv, NOTE_TO_KEY, NOTE_MAPPING, STOP_KEY_NAME, stopIfBusy,
      List.find?]

/-- Witness for `stop_slot_semantics`: velocity 100, empty sample table
(no sample loaded for Key1), a busy channel. -/
theorem stop_slot_semantics_witness :
    handle_midi_message { type := "note_on", note := 50, velocity := 100 } []
      (some (some 7)) = Except.ok (some none) :=
  stop_slot_semantics 100 [] (some 7) (by decide)

/-- C9: the slot key of an upload or delete command is never validated — any
non-empty key string (including one with path separators, never checked
against the 12 slot identifiers) is passed verbatim: the upload command
dispatches to `begin_upload` with the key as given, the session stores it
unchanged with the basename-sanitized file name, finalize writes to
`join(uploads_dir, key, basename(filename))`, and `delete_file` deletes at
that same path. -/
theorem slot_key_unvalidated (key filename : String) (n : Int)
    (fm : FileManager) (fs : FileSystem) (dirs : String → Bool × List String)
    (data : List Byte)
    (hkey : key ≠ "") (hfn : filename ≠ "") (hn : 0 < n) :
    handle_command fm fs dirs
        (Except.ok (JVal.jobj
          [("action", JVal.jstr "upload"), ("key", JVal.jstr key),
           ("filename", JVal.jstr filename), ("size", JVal.jnum n)]))
      = Except.ok (begin_upload fm key filename n, fs, [Note.status Status.ready]) ∧
    (begin_upload fm key filename n).uploadKey = some key ∧
    (begin_upload fm key filename n).uploadFilename = some (pyBasename filename) ∧
    (pyBasename filename ≠ "" →
      (finalize_upload { begin_upload fm key filename n with uploadBuffer := data }
        fs true).fs
        = fsWrite fs (targetPath fm.uploadsDir key filename) data) ∧
    (∀ d, fsRead fs (targetPath fm.uploadsDir key filename) = some d →
      delete_file fm fs key filename
        = (fsErase fs (targetPath fm.uploadsDir key filename), true)) := by
  refine ⟨?_, rfl, rfl, ?_, ?_⟩
  · simp [handle_command, jGet, isStrEq, jTruthy, jAsInt, List.find?,
      data_ne_nil_of_ne_empty hkey, data_ne_nil_of_ne_empty hfn]
    omega
  · intro h
    have hkt : optStrTruthy
        ({ begin_upload fm key filename n with uploadBuffer := data }).uploadKey = true := by
      simp [begin_upload, optStrTruthy, data_ne_nil_of_ne_empty hkey]
    have hft : optStrTruthy
        ({ begin_upload fm key filename n with uploadBuffer := data }).uploadFilename = true := by
      simp [begin_upload, optStrTruthy, data_ne_nil_of_ne_empty h]
    rw [finalize_upload_truthy _ fs true hkt hft]
    simp [begin_upload, targetPath]
  · intro d hd
    unfold delete_file
    simp [hd]

/-- Witness for `slot_key_unvalidated` with the key "../escape" — not one of
the 12 slot identifiers and containing a path separator. -/
theorem slot_key_unvalidated_witness :
    handle_command (initFileManager "uploads") [] (fun _ => (false, []))
        (Except.ok (JVal.jobj
          [("action", JVal.jstr "upload"), ("key", JVal.jstr "../escape"),
           ("filename", JVal.jstr "x.wav"), ("size", JVal.jnum 5)]))
      = Except.ok (begin_upload (initFileManager "uploads") "../escape" "x.wav" 5, [],
          [Note.status Status.ready]) ∧
    (begin_upload (initFileManager "uploads") "../escape" "x.wav" 5).uploadKey
      = some "../escape" ∧
    (begin_upload (initFileManager "uploads") "../escape" "x.wav" 5).uploadFilename
      = some (pyBasename "x.wav") ∧
    (pyBasename "x.wav" ≠ "" →
      (finalize_upload
        { begin_upload (initFileManager "uploads") "../escape" "x.wav" 5 with
            uploadBuffer := [1] } [] true).fs
        = fsWrite [] (targetPath (initFileManager "uploads").uploadsDir "../escape" "x.wav") [1]) ∧
    (∀ d, fsRead [] (targetPath (initFileManager "uploads").uploadsDir "../escape" "x.wav")
        = some d →
      delete_file (initFileManager "uploads") [] "../escape" "x.wav"
        = (fsErase [] (targetPath (initFileManager "uploads").uploadsDir "../escape" "x.wav"),
           true)) :=
  slot_key_unvalidated "../escape" "x.wav" 5 (initFileManager "uploads") []
    (fun _ => (false, [])) [1] (by decide) (by decide) (by decide)

set_option maxRecDepth 10000 in
/-- C3 (counterexample): the hidden file ".a.wav" (dot-prefixed, accepted
extension) IS selected by `_find_sample_file` and IS loaded by
`scan_and_update` as the active sample of slot Key2 (note 51) — while the
BLE file list (`list_all_files`) excludes it. -/
theorem rescan_selects_hidden_file_counterexample :
    startsDot ".a.wav" = true ∧
    hasSupportedExt ".a.wav" = true ∧
    find_sample_file "up" "Key2" true [(".a.wav", 5)] = some ("up/Key2/.a.wav", 5) ∧
    get_sample
      (scan_and_update (initLoader "up")
        (fun d => if d == "up/Key2" then (true, [(".a.wav", 5)]) else (false, []))
        (fun _ => some 99) true).1 51 = some 99 ∧
    list_all_files "up" (fun d => if d == "up/Key2" then (true, [".a.wav"]) else (false, []))
      = NOTE_MAPPING.map (fun kn => (kn.1, ([] : List String))) := by
  refine ⟨rfl, rfl, by decide, by decide, by decide⟩

/-- C3 (amended): the eligibility test of the hot-reload rescan
(`_find_sample_file`) checks only the file extension — hidden files are NOT
excluded there (only `list_all_files` excludes them): any single file with an
accepted extension, dot-prefixed or not, becomes the selected sample of its
slot. -/
theorem rescan_eligibility_extension_only (folderPath key_folder name : String) (mtime : Nat)
    (hext : hasSupportedExt name = true) :
    find_sample_file folderPath key_folder true [(name, mtime)] =
      some (pyJoin (pyJoin folderPath key_folder) name, mtime) := by
  unfold find_sample_file
  simp [hext, pySort, pySortAux, insertOrd]

/-- Witness for `rescan_eligibility_extension_only` on the hidden file
".a.wav". -/
theorem rescan_eligibility_extension_only_witness :
    find_sample_file "up" "Key9" true [(".a.wav", 7)]
      = some (pyJoin (pyJoin "up" "Key9") ".a.wav", 7) :=
  rescan_eligibility_extension_only "up" "Key9" ".a.wav" 7 (by decide)

/-- C8: per-slot lexicographic selection — whenever a slot's directory
listing contains at least one file with an accepted extension (names in a
real listing never start with a separator), `_find_sample_file` picks a
candidate file of that slot that sorts lexicographically no later than every
other candidate of the same listing; the function sees only the one slot's
listing, so selection never compares across slots. -/
theorem lexicographic_selection (folderPath key_folder : String)
    (listing : List (String × Nat))
    (hns : ∀ p ∈ listing, startsSlash p.1 = false)
    (hex : ∃ p ∈ listing, hasSupportedExt p.1 = true) :
    ∃ m ∈ listing, hasSupportedExt m.1 = true ∧
      find_sample_file folderPath key_folder true listing =
        some (pyJoin (pyJoin folderPath key_folder) m.1, m.2) ∧
      ∀ g ∈ listing, hasSupportedExt g.1 = true → strLe m.1 g.1 = true := by
  obtain ⟨p, hpmem, hpext⟩ := hex
  have irr : ∀ a : String × Nat, strLt a.1 a.1 = false :=
    fun a => charListLt_irrefl a.1.data
  have asym : ∀ a b : String × Nat, strLt a.1 b.1 = true → strLt b.1 a.1 = false :=
    fun a b h => charListLt_asymm _ _ h
  have trn : ∀ a b c : String × Nat,
      strLt a.1 b.1 = true → strLt b.1 c.1 = true → strLt a.1 c.1 = true :=
    fun a b c h1 h2 => charListLt_trans _ _ _ h1 h2
  have hunfold : find_sample_file folderPath key_folder true listing =
      (pySort (fun a b : String × Nat => strLt a.1 b.1)
        ((listing.filter fun q => hasSupportedExt q.1).map
          fun q => (pyJoin (pyJoin folderPath key_folder) q.1, q.2))).head? := rfl
  have hpv : (pyJoin (pyJoin folderPath key_folder) p.1, p.2) ∈
      (listing.filter fun q => hasSupportedExt q.1).map
        (fun q => (pyJoin (pyJoin folderPath key_folder) q.1, q.2)) :=
    List.mem_map.mpr ⟨p, List.mem_filter.mpr ⟨hpmem, hpext⟩, rfl⟩
  have hmemSort := (mem_pySort (fun a b : String × Nat => strLt a.1 b.1) _ _).mpr hpv
  have hne := List.ne_nil_of_mem hmemSort
  obtain ⟨h, t, e⟩ := List.exists_cons_of_ne_nil hne
  have hh : h ∈ (listing.filter fun q => hasSupportedExt q.1).map
      (fun q => (pyJoin (pyJoin folderPath key_folder) q.1, q.2)) :=
    (mem_pySort (fun a b : String × Nat => strLt a.1 b.1) _ _).mp
      (e ▸ List.mem_cons_self h t)
  obtain ⟨q, hqf, hq⟩ := List.mem_map.mp hh
  obtain ⟨hqmem, hqext⟩ := List.mem_filter.mp hqf
  refine ⟨q, hqmem, hqext, ?_, ?_⟩
  · rw [hunfold, e, hq]
    rfl
  · intro g hgmem hgext
    have hgv : (pyJoin (pyJoin folderPath key_folder) g.1, g.2) ∈
        (listing.filter fun q => hasSupportedExt q.1).map
          (fun q => (pyJoin (pyJoin folderPath key_folder) q.1, q.2)) :=
      List.mem_map.mpr ⟨g, List.mem_filter.mpr ⟨hgmem, hgext⟩, rfl⟩
    have hmin := pySort_min (fun a b : String × Nat => strLt a.1 b.1)
      irr asym trn _ h t e _ hgv
    rw [← hq] at hmin
    simp only [] at hmin
    rw [strLt_pyJoin (pyJoin folderPath key_folder) g.1 q.1
      (hns g hgmem) (hns q hqmem)] at hmin
    exact charListLe_of_not_lt q.1.data g.1.data hmin

/-- Witness for `lexicographic_selection` on the listing with b.wav and
a.wav, together with the computed fact that the selected file really is
a.wav. -/
theorem lexicographic_selection_witness :
    (∃ m ∈ ([("b.wav", 1), ("a.wav", 2)] : List (String × Nat)),
      hasSupportedExt m.1 = true ∧
      find_sample_file "up" "Key3" true [("b.wav", 1), ("a.wav", 2)] =
        some (pyJoin (pyJoin "up" "Key3") m.1, m.2) ∧
      ∀ g ∈ ([("b.wav", 1), ("a.wav", 2)] : List (String × Nat)),
        hasSupportedExt g.1 = true → strLe m.1 g.1 = true) ∧
    find_sample_file "up" "Key3" true [("b.wav", 1), ("a.wav", 2)]
      = some ("up/Key3/a.wav", 2) :=
  ⟨lexicographic_selection "up" "Key3" [("b.wav", 1), ("a.wav", 2)]
      (by decide) (by decide),
   by decide⟩

/-- Expected number of progress notifications over k nominal-size chunks
starting from L buffered bytes: one per chunk whose new total passes the
source's throttle test `total % (CHUNK_SIZE * 10) < CHUNK_SIZE`. -/
def nominalCount (L : Nat) : Nat → Nat
  | 0 => 0
  | k + 1 =>
    (if (L + CHUNK_SIZE) % (CHUNK_SIZE * 10) < CHUNK_SIZE then 1 else 0)
      + nominalCount (L + CHUNK_SIZE) k

theorem runChunks_nil (fm : FileManager) (fs : FileSystem)
    (dirs : String → Bool × List String) (writeOk : Bool) :
    runChunks fm fs dirs writeOk [] = ⟨fm, fs, []⟩ := rfl

theorem runChunks_cons (fm : FileManager) (fs : FileSystem)
    (dirs : String → Bool × List String) (writeOk : Bool)
    (c : List Byte) (cs : List (List Byte)) :
    runChunks fm fs dirs writeOk (c :: cs) =
      ⟨(runChunks (handle_transfer_chunk fm fs dirs writeOk c).fm
          (handle_transfer_chunk fm fs dirs writeOk c).fs dirs writeOk cs).fm,
       (runChunks (handle_transfer_chunk fm fs dirs writeOk c).fm
          (handle_transfer_chunk fm fs dirs writeOk c).fs dirs writeOk cs).fs,
       (handle_transfer_chunk fm fs dirs writeOk c).notes ++
         (runChunks (handle_transfer_chunk fm fs dirs writeOk c).fm
            (handle_transfer_chunk fm fs dirs writeOk c).fs dirs writeOk cs).notes⟩ := rfl

/-- A chunk that does not complete the upload: state advances, and a progress
notification is emitted iff the new total passes the modulo throttle test. -/
theorem handle_transfer_chunk_incomplete (fm : FileManager) (fs : FileSystem)
    (dirs : String → Bool × List String) (writeOk : Bool) (value : List Byte)
    (hip : upload_in_progress fm = true)
    (hnc : upload_complete { fm with uploadBuffer := fm.uploadBuffer ++ value } = false) :
    handle_transfer_chunk fm fs dirs writeOk value =
      if (fm.uploadBuffer ++ value).length % (CHUNK_SIZE * 10) < CHUNK_SIZE
      then ⟨{ fm with uploadBuffer := fm.uploadBuffer ++ value }, fs,
            [Note.status (get_transfer_status
              { fm with uploadBuffer := fm.uploadBuffer ++ value })]⟩
      else ⟨{ fm with uploadBuffer := fm.uploadBuffer ++ value }, fs, []⟩ := by
  unfold handle_transfer_chunk
  rw [if_neg (by simp [hip])]
  simp only [receive_chunk, hnc, Bool.false_eq_true, if_false]

/-- Over k nominal-size chunks that stay strictly below the expected size,
the progress notifications delivered by `_handle_transfer_chunk` number
exactly `nominalCount` of the starting buffer length. -/
theorem runChunks_nominal (fs : FileSystem) (dirs : String → Bool × List String)
    (writeOk : Bool) :
    ∀ (k : Nat) (fm : FileManager),
      fm.uploadKey.isSome = true →
      ((fm.uploadBuffer.length + CHUNK_SIZE * k : Nat) : Int) < fm.uploadExpectedSize →
      progressCount (runChunks fm fs dirs writeOk
          (List.replicate k (List.replicate CHUNK_SIZE 0))).notes
        = nominalCount fm.uploadBuffer.length k
  | 0, fm, _, _ => by
    simp [runChunks, progressCount, nominalCount]
  | k + 1, fm, hkey, hlt => by
    have hip : upload_in_progress fm = true := hkey
    have hbuflen : (fm.uploadBuffer ++ List.replicate CHUNK_SIZE (0 : Byte)).length
        = fm.uploadBuffer.length + CHUNK_SIZE := by simp
    have hnotle : ¬ (fm.uploadExpectedSize
        ≤ ((fm.uploadBuffer.length + CHUNK_SIZE : Nat) : Int)) := by
      simp only [CHUNK_SIZE] at hlt ⊢
      push_cast at hlt ⊢
      omega
    have hnotcomp : upload_complete
        { fm with uploadBuffer := fm.uploadBuffer ++ List.replicate CHUNK_SIZE 0 } = false := by
      unfold upload_complete
      simp only [hbuflen, decide_eq_false hnotle, Bool.and_false]
    have hip1 : upload_in_progress
        { fm with uploadBuffer := fm.uploadBuffer ++ List.replicate CHUNK_SIZE 0 } = true := hkey
    have hlt1 : ((({ fm with uploadBuffer := fm.uploadBuffer ++ List.replicate CHUNK_SIZE 0 }
          : FileManager).uploadBuffer.length + CHUNK_SIZE * k : Nat) : Int)
        < ({ fm with uploadBuffer := fm.uploadBuffer ++ List.replicate CHUNK_SIZE 0 }
          : FileManager).uploadExpectedSize := by
      show (((fm.uploadBuffer ++ List.replicate CHUNK_SIZE (0 : Byte)).length
          + CHUNK_SIZE * k : Nat) : Int) < fm.uploadExpectedSize
      rw [hbuflen]
      simp only [CHUNK_SIZE] at hlt ⊢
      push_cast at hlt ⊢
      omega
    have ih := runChunks_nominal fs dirs writeOk k
      { fm with uploadBuffer := fm.uploadBuffer ++ List.replicate CHUNK_SIZE 0 } hkey hlt1
    have ih' : List.countP isProgressNote
        (runChunks { fm with uploadBuffer := fm.uploadBuffer ++ List.replicate CHUNK_SIZE 0 }
          fs dirs writeOk (List.replicate k (List.replicate CHUNK_SIZE 0))).notes
        = nominalCount ((fm.uploadBuffer ++ List.replicate CHUNK_SIZE (0 : Byte)).length) k := ih
    rw [hbuflen] at ih'
    have hnote : isProgressNote (Note.status (get_transfer_status
        { fm with uploadBuffer := fm.uploadBuffer ++ List.replicate CHUNK_SIZE 0 })) = true := by
      unfold get_transfer_status
      rw [if_neg (by simp [hip1])]
      rfl
    have hrhs : nominalCount fm.uploadBuffer.length (k + 1) =
        (if (fm.uploadBuffer.length + CHUNK_SIZE) % (CHUNK_SIZE * 10) < CHUNK_SIZE
          then 1 else 0)
        + nominalCount (fm.uploadBuffer.length + CHUNK_SIZE) k := rfl
    rw [List.replicate_succ, runChunks_cons,
      handle_transfer_chunk_incomplete fm fs dirs writeOk (List.replicate CHUNK_SIZE 0)
        hip hnotcomp, hbuflen]
    by_cases hc : (fm.uploadBuffer.length + CHUNK_SIZE) % (CHUNK_SIZE * 10) < CHUNK_SIZE
    · rw [if_pos hc]
      show List.countP isProgressNote
          ([Note.status (get_transfer_status
              { fm with uploadBuffer := fm.uploadBuffer ++ List.replicate CHUNK_SIZE 0 })] ++
            (runChunks { fm with uploadBuffer := fm.uploadBuffer ++ List.replicate CHUNK_SIZE 0 }
              fs dirs writeOk (List.replicate k (List.replicate CHUNK_SIZE 0))).notes)
        = nominalCount fm.uploadBuffer.length (k + 1)
      rw [List.countP_append, ih', hrhs, if_pos hc]
      simp [List.countP_cons, hnote]
    · rw [if_neg hc]
      show List.countP isProgressNote
          ([] ++
            (runChunks { fm with uploadBuffer := fm.uploadBuffer ++ List.replicate CHUNK_SIZE 0 }
              fs dirs writeOk (List.replicate k (List.replicate CHUNK_SIZE 0))).notes)
        = nominalCount fm.uploadBuffer.length (k + 1)
      rw [List.countP_append, ih', hrhs, if_neg hc]
      simp

/-- Starting from an empty buffer, the throttle test passes exactly on every
10th nominal chunk: the count is ⌊k/10⌋. -/
theorem nominalCount_eq :
    ∀ (k m : Nat), nominalCount (CHUNK_SIZE * m) k = (m + k) / 10 - m / 10
  | 0, m => by simp [nominalCount]
  | k + 1, m => by
    have hstep : nominalCount (CHUNK_SIZE * m) (k + 1)
        = (if (CHUNK_SIZE * m + CHUNK_SIZE) % (CHUNK_SIZE * 10) < CHUNK_SIZE then 1 else 0)
          + nominalCount (CHUNK_SIZE * m + CHUNK_SIZE) k := rfl
    rw [hstep]
    have hmul : CHUNK_SIZE * m + CHUNK_SIZE = CHUNK_SIZE * (m + 1) := by ring
    rw [hmul, nominalCount_eq k (m + 1)]
    have hmod : CHUNK_SIZE * (m + 1) % (CHUNK_SIZE * 10) = CHUNK_SIZE * ((m + 1) % 10) :=
      Nat.mul_mod_mul_left _ _ _
    rw [hmod]
    have hCS : CHUNK_SIZE = 512 := rfl
    rw [hCS]
    by_cases hd : (m + 1) % 10 = 0
    · rw [if_pos (by omega)]
      omega
    · rw [if_neg (by omega)]
      omega

/-- C4 (counterexample): the throttle does not bound progress notifications
to one per 5120 received bytes — after `begin` with expected size 10000, two
1-byte chunks (2 bytes total, upload far from complete) each trigger a
progress notification: 2 notifications where the claim allows at most 1, and
one on every single chunk. -/
theorem progress_throttle_counterexample :
    progressCount (runChunks (begin_upload (initFileManager "uploads") "Key1" "x.wav" 10000)
        [] (fun _ => (false, [])) true [[7], [7]]).notes = 2 ∧
    bytes_received (runChunks (begin_upload (initFileManager "uploads") "Key1" "x.wav" 10000)
        [] (fun _ => (false, [])) true [[7], [7]]).fm = 2 ∧
    upload_complete (runChunks (begin_upload (initFileManager "uploads") "Key1" "x.wav" 10000)
        [] (fun _ => (false, [])) true [[7], [7]]).fm = false ∧
    ¬ (progressCount (runChunks (begin_upload (initFileManager "uploads") "Key1" "x.wav" 10000)
        [] (fun _ => (false, [])) true [[7], [7]]).notes ≤ 1) :=
  ⟨rfl, rfl, rfl, by decide⟩

/-- C4 (amended): a progress notification is emitted after a non-completing
chunk exactly when the new total mod 5120 is below 512; consequently, for
chunks of exactly the nominal CHUNK_SIZE = 512 bytes (totals staying below
the expected size), exactly ⌊k/10⌋ progress notifications are emitted over k
chunks — at most one per 10 nominal chunks — while sequences of smaller
chunks can notify on consecutive chunks. -/
theorem progress_throttle_nominal_chunks (uploadsDir key filename : String) (N : Int)
    (k : Nat) (fs : FileSystem) (dirs : String → Bool × List String) (writeOk : Bool)
    (hN : ((CHUNK_SIZE * k : Nat) : Int) < N) :
    progressCount (runChunks (begin_upload (initFileManager uploadsDir) key filename N)
        fs dirs writeOk (List.replicate k (List.replicate CHUNK_SIZE 0))).notes = k / 10 := by
  have h := runChunks_nominal fs dirs writeOk k
    (begin_upload (initFileManager uploadsDir) key filename N) rfl
    (by
      show ((([] : List Byte).length + CHUNK_SIZE * k : Nat) : Int) < N
      simpa using hN)
  have h2 : nominalCount (List.length ([] : List Byte)) k = k / 10 := by
    have h0 := nominalCount_eq k 0
    simpa using h0
  exact h.trans h2

/-- Witness for `progress_throttle_nominal_chunks`: 25 nominal 512-byte
chunks under an expected size of 999999 produce exactly 2 progress
notifications. -/
theorem progress_throttle_nominal_chunks_witness :
    progressCount (runChunks (begin_upload (initFileManager "uploads") "Key1" "x.wav" 999999)
        [] (fun _ => (false, [])) true
        (List.replicate 25 (List.replicate CHUNK_SIZE 0))).notes = 25 / 10 :=
  progress_throttle_nominal_chunks "uploads" "Key1" "x.wav" 999999 25 []
    (fun _ => (false, [])) true (by decide)

/-- C10: a syntactically valid JSON command that is not a JSON object — the
payload `42` — makes `_handle_command` raise `AttributeError` at
`cmd.get("action")`, which propagates uncaught out of the write callback; a
decode failure, by contrast, is caught and reported as an error status. -/
theorem non_object_json_uncaught :
    handle_command (initFileManager "uploads") [] (fun _ => (false, []))
        (Except.ok (JVal.jnum 42))
      = Except.error PyErr.attributeError ∧
    handle_command (initFileManager "uploads") [] (fun _ => (false, []))
        (Except.error ())
      = Except.ok (initFileManager "uploads", [],
          [Note.status (Status.errorMsg "invalid JSON")]) :=
  ⟨rfl, rfl⟩

end CarlBox
